import Mathlib

/-!
Verification of the generic finite-state-machine engine
(`src/part2/fsm/StateMachine.h`, `src/fsm/actions/TransitionTo.h`,
`src/fsm/actions/Maybe.h`, `src/part2/fsm/actions/OneOf.h`,
`src/part2/fsm/actions/ByDefault.h`, `src/part4/fsm/actions/On.h`,
`src/part4/fsm/actions/Nothing.h`, `src/part4/fsm/actions/utils.h`) and of
the Door example machine (`src/part2/Door.h`, `src/part2/example.cpp`).

The C++ machine owns one long-lived instance per declared state type
(`std::tuple<_States...> states`) and tracks the active one with
`std::variant<_States*...> currentState`.  We embed a machine shallowly:

* a type `ι` of state indices stands for the declared state tuple; the
  per-state payload types are given by a family `Data : ι → Type`
  (`ClosedState`'s `bool autoLock`, `LockedState`'s `uint32_t key`, ...);
* a `MachState ι Data` holds the owned payloads (`states`, a dependent
  function standing for the `std::tuple`) and the active index
  (`current`, standing for the `std::variant` of pointers);
* the per-state compile-time dispatch (handler overload resolution and the
  SFINAE detection of the optional `onEnter`/`onLeave` hooks in
  `TransitionTo::leave`/`enter`) is embedded as explicit functions of a
  `MachineSpec`: a hook that is not defined for a given (state, event)
  is `none`, a defined hook is `some f` where `f` maps the state's payload
  to the updated payload paired with the hook's (discarded) return value.

Hook invocations are made observable by returning a `HookCall` trace from
`Action.execute`, so that "calls onLeave exactly once, then onEnter" is a
statement about the produced trace.
-/

namespace Fsm

/-- A record of one lifecycle-hook invocation, used to observe the order and
multiplicity of `onLeave`/`onEnter` calls performed by `Action.execute`. -/
inductive HookCall (ι : Type) where
  | leave (i : ι)
  | enter (i : ι)
deriving DecidableEq

/-- The closed action vocabulary.  `nothing` embeds `struct Nothing`
(`src/part4/fsm/actions/Nothing.h`), `transitionTo t` embeds
`TransitionTo<TargetState>` (`src/fsm/actions/TransitionTo.h`), and
`oneOf held` embeds a `OneOf<Actions...>` value holding the variant `held`
(`src/part2/fsm/actions/OneOf.h`: `std::variant<Actions...> options`). -/
inductive Action (ι : Type) where
  | nothing
  | transitionTo (target : ι)
  | oneOf (held : Action ι)
deriving DecidableEq

/-- `Maybe<Action>` is `OneOf<Action, Nothing>` (`src/fsm/actions/Maybe.h`);
a handler returning `Action{...}` through the converting constructor yields
the accepting variant. -/
def Maybe.accept {ι : Type} (a : Action ι) : Action ι :=
  Action.oneOf a

/-- The declining variant of `Maybe<Action>`: the held alternative is
`Nothing{}` (`src/fsm/actions/Maybe.h`). -/
def Maybe.decline {ι : Type} : Action ι :=
  Action.oneOf Action.nothing

/-- The machine's owned storage and active-state tracker:
`std::tuple<_States...> states` and `std::variant<_States*...> currentState`
of `src/part2/fsm/StateMachine.h`. -/
structure MachState (ι : Type) (Data : ι → Type) where
  states : (i : ι) → Data i
  current : ι

/-- The compile-time content of one machine: payload types, the optional
`onLeave`/`onEnter` hooks that `TransitionTo::leave`/`enter` detect by
SFINAE, and each state's handler overload set resolved per event.  A hook
returns the updated payload together with its C++ return value (an action
for the hooks appearing in `src/part2/Door.h`), which the engine discards. -/
structure MachineSpec (ι : Type) (Ev : Type) where
  Data : ι → Type
  onLeave : (i : ι) → Ev → Option (Data i → Data i × Action ι)
  onEnter : (i : ι) → Ev → Option (Data i → Data i × Action ι)
  handle : (i : ι) → Ev → Data i → Action ι

/-- `StateMachine::transitionTo<State>()` (`src/part2/fsm/StateMachine.h`,
lines 38-44): reassign `currentState` to point at `State`'s owned instance
and return that instance (here: the new `current` index designates it). -/
def StateMachine.transitionTo {ι : Type} {Data : ι → Type}
    (s : MachState ι Data) (t : ι) : MachState ι Data :=
  { s with current := t }

/-- `TransitionTo::leave` (`src/fsm/actions/TransitionTo.h`): call
`state.onLeave(event)` when the expression is well-formed (the SFINAE
overload), otherwise fall through to the `leave(...)` no-op.  The payload of
state `i` is updated in place; the hook's return value is dropped. -/
def TransitionTo.leave {ι Ev : Type} [DecidableEq ι] (M : MachineSpec ι Ev)
    (i : ι) (e : Ev) (st : (j : ι) → M.Data j) :
    ((j : ι) → M.Data j) × List (HookCall ι) :=
  match M.onLeave i e with
  | some f => (Function.update st i (f (st i)).1, [HookCall.leave i])
  | none => (st, [])

/-- `TransitionTo::enter` (`src/fsm/actions/TransitionTo.h`): call
`state.onEnter(event)` when defined, otherwise the `enter(...)` no-op. -/
def TransitionTo.enter {ι Ev : Type} [DecidableEq ι] (M : MachineSpec ι Ev)
    (i : ι) (e : Ev) (st : (j : ι) → M.Data j) :
    ((j : ι) → M.Data j) × List (HookCall ι) :=
  match M.onEnter i e with
  | some f => (Function.update st i (f (st i)).1, [HookCall.enter i])
  | none => (st, [])

/-- Executing one action against the machine, the previously active state
`prev` and the event, merging the `execute` members of the three concrete
action classes: `Nothing::execute` does nothing
(`src/part4/fsm/actions/Nothing.h`); `TransitionTo::execute`
(`src/fsm/actions/TransitionTo.h`, lines 7-13) runs
`leave(prevState, event)`, then `machine.transitionTo<TargetState>()`,
then `enter(newState, event)`; `OneOf::execute`
(`src/part2/fsm/actions/OneOf.h`, lines 16-20) `std::visit`s the held
variant's own `execute`. -/
def Action.execute {ι Ev : Type} [DecidableEq ι] (M : MachineSpec ι Ev) :
    Action ι → ι → Ev → MachState ι M.Data →
    MachState ι M.Data × List (HookCall ι)
  | Action.nothing, _, _, s => (s, [])
  | Action.transitionTo t, prev, e, s =>
      let afterLeave := TransitionTo.leave M prev e s.states
      let moved := StateMachine.transitionTo ⟨afterLeave.1, s.current⟩ t
      let afterEnter := TransitionTo.enter M t e moved.states
      (⟨afterEnter.1, moved.current⟩, afterLeave.2 ++ afterEnter.2)
  | Action.oneOf a, prev, e, s => Action.execute M a prev e s

/-- `StateMachine::handleBy` (`src/part2/fsm/StateMachine.h`, lines 53-61):
visit the active state, obtain `statePtr->handle(event)`, then
`action.execute(machine, *statePtr, event)`. -/
def StateMachine.handleBy {ι Ev : Type} [DecidableEq ι] (M : MachineSpec ι Ev)
    (e : Ev) (s : MachState ι M.Data) :
    MachState ι M.Data × List (HookCall ι) :=
  Action.execute M (M.handle s.current e (s.states s.current)) s.current e s

/-- Spec-side description of executing `TransitionTo<t>` (spec §4.1):
step (1) apply `onLeave` to the previous state's payload if the hook is
defined, step (2) move the active-state tracker to `t`, step (3) apply
`onEnter` to `t`'s payload if defined; the trace records the leave call (if
any) strictly before the enter call (if any). -/
def transitionSpecResult {ι Ev : Type} [DecidableEq ι] (M : MachineSpec ι Ev)
    (t : ι) (e : Ev) (s : MachState ι M.Data) :
    MachState ι M.Data × List (HookCall ι) :=
  let leftStates : (j : ι) → M.Data j :=
    match M.onLeave s.current e with
    | some f => Function.update s.states s.current (f (s.states s.current)).1
    | none => s.states
  let enteredStates : (j : ι) → M.Data j :=
    match M.onEnter t e with
    | some g => Function.update leftStates t (g (leftStates t)).1
    | none => leftStates
  (⟨enteredStates, t⟩,
    (match M.onLeave s.current e with
     | some _ => [HookCall.leave s.current]
     | none => []) ++
    (match M.onEnter t e with
     | some _ => [HookCall.enter t]
     | none => []))

/-- C1: executing `TransitionTo<t>` while `s.current` is the active state
first applies the active state's `onLeave` hook (exactly one `leave` trace
entry) when that hook is defined for the event and skips it silently
otherwise, then mutates the active-state tracker to `t`, then applies `t`'s
`onEnter` hook (exactly one `enter` entry) when defined, in strictly that
order; afterwards `t` is the active state. -/
theorem transitionTo_execute_follows_spec {ι Ev : Type} [DecidableEq ι]
    (M : MachineSpec ι Ev) (t : ι) (e : Ev) (s : MachState ι M.Data) :
    Action.execute M (Action.transitionTo t) s.current e s =
      transitionSpecResult M t e s := by
  cases hL : M.onLeave s.current e <;> cases hE : M.onEnter t e <;>
    simp [Action.execute, TransitionTo.leave, TransitionTo.enter,
      StateMachine.transitionTo, transitionSpecResult, hL, hE]

/-- C3: a `Maybe<A>` constructed holding `Nothing` executes exactly like
`Nothing`, a `Maybe<A>` constructed holding an `A` value executes exactly
like that value, and `OneOf` adds nothing beyond dispatching `execute` to
the variant it holds: machine state and hook trace agree in all three
comparisons. -/
theorem maybe_oneOf_execute_transparent {ι Ev : Type} [DecidableEq ι]
    (M : MachineSpec ι Ev) (a : Action ι) (prev : ι) (e : Ev)
    (s : MachState ι M.Data) :
    Action.execute M Maybe.decline prev e s =
      Action.execute M Action.nothing prev e s ∧
    Action.execute M (Maybe.accept a) prev e s =
      Action.execute M a prev e s ∧
    Action.execute M (Action.oneOf a) prev e s =
      Action.execute M a prev e s := by
  refine ⟨?_, ?_, ?_⟩ <;> simp [Maybe.decline, Maybe.accept, Action.execute]

/-- C6: executing `Nothing` returns the machine state unchanged — same
tracker, same payload of every state — and an empty hook trace; hence when
the active state resolves an event to `Nothing`, any number of repeated
dispatches of that event leaves the machine exactly where it started. -/
theorem nothing_execute_noop {ι Ev : Type} [DecidableEq ι]
    (M : MachineSpec ι Ev) (e : Ev) (s : MachState ι M.Data) (prev : ι)
    (h : M.handle s.current e (s.states s.current) = Action.nothing) :
    Action.execute M Action.nothing prev e s = (s, []) ∧
    ∀ n : Nat, (fun st => (StateMachine.handleBy M e st).1)^[n] s = s := by
  refine ⟨rfl, ?_⟩
  have hstep : (StateMachine.handleBy M e s).1 = s := by
    simp [StateMachine.handleBy, h, Action.execute]
  intro n
  induction n with
  | zero => rfl
  | succ k ih => rw [Function.iterate_succ_apply, hstep, ih]

/-- Replace the value each hook returns (the `.2` component) while keeping
its payload mutation (the `.1` component).  In the C++ source a hook's
return value is whatever the member function returns
(`src/part2/Door.h`: `ClosedState::onEnter` returns a
`Maybe<TransitionTo<LockedState>>`); `TransitionTo::leave`/`enter` forward
it but `TransitionTo::execute` drops it on the floor. -/
def MachineSpec.withHookReturns {ι Ev : Type} (M : MachineSpec ι Ev)
    (rl re : (i : ι) → Ev → M.Data i → Action ι) : MachineSpec ι Ev :=
  { M with
    onLeave := fun i e =>
      (M.onLeave i e).map (fun f => fun d => ((f d).1, rl i e d)),
    onEnter := fun i e =>
      (M.onEnter i e).map (fun g => fun d => ((g d).1, re i e d)) }

/-- The set of states an action can possibly make active: the targets of
the `TransitionTo` actions reachable through `OneOf` wrappers. -/
def Action.targets {ι : Type} : Action ι → List ι
  | Action.nothing => []
  | Action.transitionTo t => [t]
  | Action.oneOf a => Action.targets a

/-- Helper for the tracker invariant: executing an action either leaves the
tracker alone or moves it to one of the action's `TransitionTo` targets. -/
theorem execute_current_mem {ι Ev : Type} [DecidableEq ι]
    (M : MachineSpec ι Ev) (s : MachState ι M.Data) (a : Action ι)
    (prev : ι) (e : Ev) :
    (Action.execute M a prev e s).1.current = s.current ∨
      (Action.execute M a prev e s).1.current ∈ Action.targets a := by
  induction a with
  | nothing => exact Or.inl rfl
  | transitionTo t' =>
      right
      simp [Action.execute, StateMachine.transitionTo, Action.targets]
  | oneOf a ih => exact ih

/-- C10: `StateMachine::transitionTo` reassigns only the active-state
tracker — the owned payloads are untouched and none is created or
destroyed (the `states` field is the very same total function) — and it is
the only mutator of the tracker: after executing any action the tracker
either still holds its old value or holds a `TransitionTo` target occurring
in that action; the same holds for a full `handle` dispatch.  The tracker
always holds an element of `ι`, i.e. designates one of the machine's owned
instances, by the type of `MachState.current`. -/
theorem tracker_only_mutated_by_transitionTo {ι Ev : Type} [DecidableEq ι]
    (M : MachineSpec ι Ev) (s : MachState ι M.Data) (t : ι) (a : Action ι)
    (prev : ι) (e : Ev) :
    (StateMachine.transitionTo s t = ⟨s.states, t⟩) ∧
    ((Action.execute M a prev e s).1.current = s.current ∨
      (Action.execute M a prev e s).1.current ∈ Action.targets a) ∧
    ((StateMachine.handleBy M e s).1.current = s.current ∨
      (StateMachine.handleBy M e s).1.current ∈
        Action.targets (M.handle s.current e (s.states s.current))) := by
  exact ⟨rfl, execute_current_mem M s a prev e,
    execute_current_mem M s (M.handle s.current e (s.states s.current))
      s.current e⟩

/-- `ByDefault<Action>::handle` (`src/part2/fsm/actions/ByDefault.h`,
lines 3-11): for every event, return a freshly default-constructed
`Action{}`; here the canonical value `a` standing for `Action{}` is
returned for every event tag `t`.  Generic in the result type `α` so that
the same resolution underlies both runtime dispatch (`α` an action value)
and the compile-time introspection of `ResolveAction` (`α` an action
type). -/
def ByDefault.handle {τ α : Type} (a : α) (_t : τ) : α :=
  a

/-- `On<Event, Action>::handle` (`src/part4/fsm/actions/On.h`, lines 3-10):
applicable only to the exact event type `ev`, where it returns the
default-constructed `Action{}`; `none` models the absence of any viable
`handle` overload for other event tags. -/
def On.handle {τ α : Type} [DecidableEq τ] (ev : τ) (a : α) (t : τ) :
    Option α :=
  if t = ev then some a else none

/-- Modelled from the spec: `Will.h` is included by `src/part2/Door.h` and
`src/example/main.cpp` but is not among the provided sources.  Spec §4.2:
`Will<Default, On<E1,A1>, On<E2,A2>, ...>` "composes a single default with
an ordered list of per-event overrides and resolves an incoming event `E`
as: if some `On<E,·>` entry's event type matches `E` exactly, use that
entry's action; otherwise fall back to `Default`'s resolution."  The
overrides are the list `entries` of (event tag, action) pairs, tried in
order through `On.handle`; the fallback is `ByDefault.handle dflt`. -/
def Will.handle {τ α : Type} [DecidableEq τ] (dflt : α) :
    List (τ × α) → τ → α
  | [], t => ByDefault.handle dflt t
  | p :: rest, t =>
      match On.handle p.1 p.2 t with
      | some a => a
      | none => Will.handle dflt rest t

/-- Helper: a `Will` composition none of whose override entries mentions
the incoming event tag resolves to the default. -/
theorem Will.handle_not_mentioned {τ α : Type} [DecidableEq τ] (dflt : α)
    (entries : List (τ × α)) (t : τ) (h : ∀ p ∈ entries, p.1 ≠ t) :
    Will.handle dflt entries t = dflt := by
  induction entries with
  | nil => rfl
  | cons p rest ih =>
      have hp : p.1 ≠ t := h p (List.mem_cons_self p rest)
      have ht : ¬ t = p.1 := fun hc => hp hc.symm
      simp only [Will.handle, On.handle, if_neg ht]
      exact ih (fun q hq => h q (List.mem_cons_of_mem p hq))

/-- Helper: when the override entries carry pairwise distinct event tags,
a `Will` composition resolves a mentioned tag to that entry's action. -/
theorem Will.handle_mentioned {τ α : Type} [DecidableEq τ] (dflt : α)
    (entries : List (τ × α)) (t : τ) (a : α)
    (hnd : (entries.map Prod.fst).Nodup) (hmem : (t, a) ∈ entries) :
    Will.handle dflt entries t = a := by
  induction entries with
  | nil => exact absurd hmem (List.not_mem_nil (t, a))
  | cons p rest ih =>
      rcases List.mem_cons.mp hmem with heq | hrest
      · subst heq
        simp [Will.handle, On.handle]
      · have hp : p.1 ≠ t := by
          intro hc
          have : t ∈ rest.map Prod.fst :=
            List.mem_map.mpr ⟨(t, a), hrest, rfl⟩
          rw [List.map_cons] at hnd
          exact (List.nodup_cons.mp hnd).1 (hc ▸ this)
        have ht : ¬ t = p.1 := fun hc => hp hc.symm
        simp only [Will.handle, On.handle, if_neg ht]
        exact ih ((List.nodup_cons.mp (by rw [List.map_cons] at hnd; exact hnd)).2)
          hrest

/-- C2: `ByDefault<D>` resolves every event tag to `D`; `On<ev,a>` resolves
exactly the tag `ev` (to `a`) and nothing else; a
`Will<ByDefault<dflt>, On...>` composition with pairwise distinct override
tags resolves a tag carried by some `On` entry to that entry's action and
every other tag to the default. -/
theorem will_byDefault_on_resolution {τ α : Type} [DecidableEq τ]
    (dflt a : α) (entries : List (τ × α)) (t ev : τ) :
    (ByDefault.handle dflt t = dflt) ∧
    (On.handle ev a ev = some a) ∧
    (t ≠ ev → On.handle ev a t = none) ∧
    ((∀ p ∈ entries, p.1 ≠ t) → Will.handle dflt entries t = dflt) ∧
    ((entries.map Prod.fst).Nodup → (t, a) ∈ entries →
      Will.handle dflt entries t = a) := by
  refine ⟨rfl, by simp [On.handle], fun hne => ?_, ?_, ?_⟩
  · simp [On.handle, if_neg hne]
  · exact Will.handle_not_mentioned dflt entries t
  · exact fun hnd hmem => Will.handle_mentioned dflt entries t a hnd hmem

/-- The declared state tuple of the Door machine
(`src/part2/Door.h`: `States<ClosedState, OpenState, LockedState>`). -/
inductive DoorState where
  | closed
  | opened
  | locked
deriving DecidableEq

/-- The declared event tuple of the Door machine (`src/part2/Door.h`:
`Events<CloseEvent, OpenEvent, LockEvent, UnlockEvent>`); `lockEv` carries
`LockEvent::newKey` and `unlockEv` carries `UnlockEvent::key`, both
`uint32_t` values on which the example only ever performs equality tests. -/
inductive DoorEvent where
  | closeEv
  | openEv
  | lockEv (newKey : Nat)
  | unlockEv (key : Nat)
deriving DecidableEq

/-- Event types as compile-time tags: handler resolution in the C++ source
dispatches on the static type of the event, not on its payload. -/
inductive EvTag where
  | closeT
  | openT
  | lockT
  | unlockT
deriving DecidableEq

/-- The static type of each event value. -/
def DoorEvent.tag : DoorEvent → EvTag
  | DoorEvent.closeEv => EvTag.closeT
  | DoorEvent.openEv => EvTag.openT
  | DoorEvent.lockEv _ => EvTag.lockT
  | DoorEvent.unlockEv _ => EvTag.unlockT

/-- Per-state payloads (`src/part2/Door.h`): `ClosedState` holds
`bool autoLock`, `OpenState` holds no data, `LockedState` holds
`uint32_t key`. -/
def DoorData : DoorState → Type
  | DoorState.closed => Bool
  | DoorState.opened => Unit
  | DoorState.locked => Nat

/-- ClosedState's `On` override list, in declaration order
(`src/part2/Door.h`, lines 35-37): `On<LockEvent, TransitionTo<LockedState>>`
then `On<OpenEvent, TransitionTo<OpenState>>`. -/
def ClosedState.transitions : List (EvTag × Action DoorState) :=
  [(EvTag.lockT, Action.transitionTo DoorState.locked),
   (EvTag.openT, Action.transitionTo DoorState.opened)]

/-- OpenState's `On` override list (`src/part2/Door.h`, lines 52-53):
`On<CloseEvent, TransitionTo<ClosedState>>`. -/
def OpenState.transitions : List (EvTag × Action DoorState) :=
  [(EvTag.closeT, Action.transitionTo DoorState.closed)]

/-- ClosedState's handler: the inherited
`Will<ByDefault<Nothing>, On<...>, On<...>>` composition. -/
def ClosedState.handle (e : DoorEvent) : Action DoorState :=
  Will.handle Action.nothing ClosedState.transitions e.tag

/-- OpenState's handler: the inherited
`Will<ByDefault<Nothing>, On<CloseEvent, TransitionTo<ClosedState>>>`. -/
def OpenState.handle (e : DoorEvent) : Action DoorState :=
  Will.handle Action.nothing OpenState.transitions e.tag

/-- LockedState's handler overload set (`src/part2/Door.h`, lines 60-80):
the directly declared `handle(const UnlockEvent&)` compares the presented
key with the stored key and accepts or declines the
`Maybe<TransitionTo<ClosedState>>`; every other event falls back to the
inherited `ByDefault<Nothing>::handle` made visible by
`using ByDefault::handle`. -/
def LockedState.handle (key : Nat) : DoorEvent → Action DoorState
  | DoorEvent.unlockEv k =>
      if k = key then Maybe.accept (Action.transitionTo DoorState.closed)
      else Maybe.decline
  | e => ByDefault.handle Action.nothing e.tag

/-- `ClosedState::onEnter(const CloseEvent&)` (`src/part2/Door.h`,
lines 41-47): reads `autoLock` (payload unchanged) and returns
`TransitionTo<LockedState>{}` or `Nothing{}` through the converting
`Maybe` constructor. -/
def ClosedState.onEnter (autoLock : Bool) : Bool × Action DoorState :=
  (autoLock,
    if autoLock then Maybe.accept (Action.transitionTo DoorState.locked)
    else Maybe.decline)

/-- `LockedState::onEnter(const LockEvent&)` (`src/part2/Door.h`,
lines 66-70): store `e.newKey` into `key` and return `Nothing{}`. -/
def LockedState.onEnter (newKey : Nat) (_key : Nat) : Nat × Action DoorState :=
  (newKey, Action.nothing)

/-- The Door states' `onEnter` hooks as detected by SFINAE: only
`ClosedState::onEnter(const CloseEvent&)` and
`LockedState::onEnter(const LockEvent&)` exist. -/
def doorOnEnter : (i : DoorState) → DoorEvent →
    Option (DoorData i → DoorData i × Action DoorState)
  | DoorState.closed, DoorEvent.closeEv => some ClosedState.onEnter
  | DoorState.locked, DoorEvent.lockEv k => some (LockedState.onEnter k)
  | _, _ => none

/-- No Door state declares an `onLeave` hook (`src/part2/Door.h`). -/
def doorOnLeave : (i : DoorState) → DoorEvent →
    Option (DoorData i → DoorData i × Action DoorState) :=
  fun _ _ => none

/-- Dispatch of an event to the active Door state's resolved handler. -/
def doorHandle : (i : DoorState) → DoorEvent → DoorData i → Action DoorState
  | DoorState.closed, e, _ => ClosedState.handle e
  | DoorState.opened, e, _ => OpenState.handle e
  | DoorState.locked, e, key => LockedState.handle key e

/-- The Door machine (`src/part2/Door.h`, lines 85-86). -/
def DoorSpec : MachineSpec DoorState DoorEvent :=
  { Data := DoorData
    onLeave := doorOnLeave
    onEnter := doorOnEnter
    handle := doorHandle }

/-- The declared state order of the Door machine:
`States<ClosedState, OpenState, LockedState>`. -/
def doorStateOrder : List DoorState :=
  [DoorState.closed, DoorState.opened, DoorState.locked]

/-- The declared event order of the Door machine:
`Events<CloseEvent, OpenEvent, LockEvent, UnlockEvent>`. -/
def doorEvents : List EvTag :=
  [EvTag.closeT, EvTag.openT, EvTag.lockT, EvTag.unlockT]

/-- The `StateMachine` constructor (`src/part2/fsm/StateMachine.h`,
lines 31-36): store the supplied per-state initial values; the member
initializer `currentState{ &std::get<0>(states) }` makes the first state
of the declared (non-empty) tuple active.  No event-set validation of any
kind is performed here. -/
def StateMachine.construct {ι Ev : Type} (M : MachineSpec ι Ev)
    (order : List ι) (h : order ≠ []) (init : (i : ι) → M.Data i) :
    MachState ι M.Data :=
  ⟨init, order.head h⟩

/-- Initial Door payloads as supplied in `src/part2/example.cpp`:
`Door door{ClosedState{a}, OpenState{}, LockedState{k}}`. -/
def doorInitData (a : Bool) (k : Nat) : (i : DoorState) → DoorData i
  | DoorState.closed => a
  | DoorState.opened => ()
  | DoorState.locked => k

/-- A freshly constructed Door machine. -/
def mkDoor (a : Bool) (k : Nat) : MachState DoorState DoorData :=
  StateMachine.construct DoorSpec doorStateOrder (by decide) (doorInitData a k)

/-- `StateMachine::handle` (`src/part2/fsm/StateMachine.h`, lines 46-51):
`static_assert(details::has_type<Event, events>::value, "Unhandled event
type")` followed by `handleBy(event, *this)`.  The membership test is the
`static_assert`: `none` models the compile-time rejection of instantiating
`handle` at an event type outside the declared tuple — the call can never
execute — while `some` carries the dispatch result for a declared event. -/
def StateMachine.handle {ι Ev τ : Type} [DecidableEq ι] [DecidableEq τ]
    (M : MachineSpec ι Ev) (events : List τ) (tag : Ev → τ) (e : Ev)
    (s : MachState ι M.Data) :
    Option (MachState ι M.Data × List (HookCall ι)) :=
  if tag e ∈ events then some (StateMachine.handleBy M e s) else none

/-- The key currently stored in the Door's `LockedState` instance. -/
def lockedKey (s : MachState DoorState DoorData) : Nat :=
  s.states DoorState.locked

/-- The Door of `src/part2/example.cpp` after `door.handle(LockEvent{1234})`. -/
def doorAfterLock (a : Bool) (k : Nat) : MachState DoorState DoorData :=
  (StateMachine.handleBy DoorSpec (DoorEvent.lockEv 1234) (mkDoor a k)).1

/-- ... after the subsequent `door.handle(UnlockEvent{2})`. -/
def doorAfterBadUnlock (a : Bool) (k : Nat) : MachState DoorState DoorData :=
  (StateMachine.handleBy DoorSpec (DoorEvent.unlockEv 2) (doorAfterLock a k)).1

/-- ... after the subsequent `door.handle(UnlockEvent{1234})`. -/
def doorAfterUnlock (a : Bool) (k : Nat) : MachState DoorState DoorData :=
  (StateMachine.handleBy DoorSpec (DoorEvent.unlockEv 1234)
    (doorAfterBadUnlock a k)).1

/-- C5: starting from `ClosedState` with any initial payloads, handling
`LockEvent{1234}` makes `LockedState` active with `key = 1234` (set by its
`onEnter`); handling `UnlockEvent{2}` then leaves `LockedState` active with
every payload — in particular the key — unchanged (the `Maybe` declines on
the key mismatch); handling `UnlockEvent{1234}` then makes `ClosedState`
active. -/
theorem door_lock_unlock_scenario (a : Bool) (k : Nat) :
    (mkDoor a k).current = DoorState.closed ∧
    (doorAfterLock a k).current = DoorState.locked ∧
    lockedKey (doorAfterLock a k) = 1234 ∧
    (doorAfterBadUnlock a k).current = DoorState.locked ∧
    (doorAfterBadUnlock a k).states = (doorAfterLock a k).states ∧
    lockedKey (doorAfterBadUnlock a k) = 1234 ∧
    (doorAfterUnlock a k).current = DoorState.closed :=
  ⟨rfl, rfl, rfl, rfl, rfl, rfl, rfl⟩

/-- C8: a machine constructed from a non-empty declared state order and one
initial payload per state starts with the first declared state active and
every owned instance holding exactly the supplied initial value. -/
theorem construct_first_state_active {ι Ev : Type} (M : MachineSpec ι Ev)
    (order : List ι) (h : order ≠ []) (init : (i : ι) → M.Data i) :
    (StateMachine.construct M order h init).current = order.head h ∧
    (StateMachine.construct M order h init).states = init :=
  ⟨rfl, rfl⟩

/-- Witness for C8 at the Door machine of `src/part2/example.cpp`: the
freshly built Door is in `ClosedState` (the first entry of
`States<ClosedState, OpenState, LockedState>`) and carries the supplied
payloads. -/
theorem construct_first_state_active_witness :
    (mkDoor true 9).current = DoorState.closed ∧
    (mkDoor true 9).states = doorInitData true 9 :=
  construct_first_state_active DoorSpec doorStateOrder (by decide)
    (doorInitData true 9)

/-- Witness for C6 at the Door: in `OpenState`, `OpenEvent` is not
overridden and resolves to the default `Nothing` (spec Scenario B), so
dispatching it three times in a row leaves the machine exactly where it
started. -/
theorem nothing_execute_noop_witness :
    (fun st => (StateMachine.handleBy DoorSpec DoorEvent.openEv st).1)^[3]
        ⟨doorInitData false 0, DoorState.opened⟩ =
      (⟨doorInitData false 0, DoorState.opened⟩ :
        MachState DoorState DoorData) :=
  (nothing_execute_noop DoorSpec DoorEvent.openEv
    ⟨doorInitData false 0, DoorState.opened⟩ DoorState.opened rfl).2 3

/-- Witness for C2 at the Door's `ClosedState` composition:
`Will<ByDefault<Nothing>, On<LockEvent, TransitionTo<LockedState>>, ...>`
resolves the `LockEvent` tag to that override's action. -/
theorem will_byDefault_on_resolution_witness :
    Will.handle Action.nothing ClosedState.transitions EvTag.lockT =
      Action.transitionTo DoorState.locked :=
  (will_byDefault_on_resolution Action.nothing
    (Action.transitionTo DoorState.locked) ClosedState.transitions
    EvTag.lockT EvTag.lockT).2.2.2.2 (by decide) (by decide)

/-- C9: the engine discards whatever value a lifecycle hook returns —
replacing every hook's returned action by anything else changes neither the
resulting machine state nor the hook trace of any action execution; and
concretely, handling `CloseEvent` in the Door's `OpenState` with
`autoLock = true` leaves `ClosedState` active, not `LockedState`, even
though `ClosedState::onEnter(CloseEvent)` returns
`Maybe<TransitionTo<LockedState>>` in its accepting variant. -/
theorem hook_return_values_discarded :
    (∀ (ι Ev : Type) [DecidableEq ι] (M : MachineSpec ι Ev)
      (rl re : (i : ι) → Ev → M.Data i → Action ι) (a : Action ι)
      (prev : ι) (e : Ev) (s : MachState ι M.Data),
      Action.execute (M.withHookReturns rl re) a prev e s =
        Action.execute M a prev e s) ∧
    (StateMachine.handleBy DoorSpec DoorEvent.closeEv
        ⟨doorInitData true 7, DoorState.opened⟩).1.current =
      DoorState.closed := by
  constructor
  · intro ι Ev inst M rl re a prev e s
    induction a with
    | nothing => rfl
    | transitionTo t =>
        cases hL : M.onLeave prev e <;> cases hE : M.onEnter t e <;>
          simp [Action.execute, TransitionTo.leave, TransitionTo.enter,
            MachineSpec.withHookReturns, hL, hE]
    | oneOf a ih => simpa [Action.execute] using ih
  · rfl

/-- The declared event tuple of a deliberately deficient Door variant that
omits `UnlockEvent` even though `LockedState::handle(const UnlockEvent&)`
references it. -/
def badDoorEvents : List EvTag :=
  [EvTag.closeT, EvTag.openT, EvTag.lockT]

/-- Counterexample to C4: with `UnlockEvent` missing from the declared
tuple yet referenced by `LockedState`'s handler (which resolves it to a
non-default action), the machine still constructs fine — nothing fails
when it is assembled — and handles declared events normally; only the
instantiation of `handle` at the omitted event type is rejected (the
`static_assert` inside `StateMachine::handle`, a per-call compile-time
check, modelled by `none`). -/
theorem schema_rejection_counterexample :
    (EvTag.unlockT ∉ badDoorEvents) ∧
    (LockedState.handle 0 (DoorEvent.unlockEv 0) ≠
      ByDefault.handle Action.nothing EvTag.unlockT) ∧
    ((mkDoor false 0).current = DoorState.closed) ∧
    (StateMachine.handle DoorSpec badDoorEvents DoorEvent.tag
        (DoorEvent.lockEv 5) (mkDoor false 0) =
      some (StateMachine.handleBy DoorSpec (DoorEvent.lockEv 5)
        (mkDoor false 0))) ∧
    (StateMachine.handle DoorSpec badDoorEvents DoorEvent.tag
        (DoorEvent.unlockEv 5) (mkDoor false 0) = none) :=
  ⟨by decide, by decide, rfl, rfl, rfl⟩

/-- C4 as amended: construction stores the payloads and activates the
first declared state without any event-set validation (it cannot fail);
the declared-set membership check happens at each `handle` instantiation —
an undeclared event type is rejected there at compile time, so the call
can never execute, while a declared event type dispatches normally; in
neither case is there a per-call runtime error value. -/
theorem schema_rejection_amended {ι Ev τ : Type} [DecidableEq ι]
    [DecidableEq τ] (M : MachineSpec ι Ev) (events : List τ) (tag : Ev → τ)
    (e : Ev) (s : MachState ι M.Data) (order : List ι) (h : order ≠ [])
    (init : (i : ι) → M.Data i) :
    (StateMachine.construct M order h init = ⟨init, order.head h⟩) ∧
    (tag e ∈ events →
      StateMachine.handle M events tag e s =
        some (StateMachine.handleBy M e s)) ∧
    (tag e ∉ events → StateMachine.handle M events tag e s = none) := by
  refine ⟨rfl, fun hm => ?_, fun hm => ?_⟩ <;>
    simp [StateMachine.handle, hm]

/-- Witness for the amended C4 at the deficient Door variant: dispatching
the omitted `UnlockEvent` is rejected at instantiation. -/
theorem schema_rejection_amended_witness :
    StateMachine.handle DoorSpec badDoorEvents DoorEvent.tag
      (DoorEvent.unlockEv 1) (mkDoor true 2) = none :=
  (schema_rejection_amended DoorSpec badDoorEvents DoorEvent.tag
    (DoorEvent.unlockEv 1) (mkDoor true 2) doorStateOrder (by decide)
    (doorInitData true 2)).2.2 (by decide)

/-- Action types, as opposed to action values: the possible results of the
compile-time `decltype` in `ResolveAction`
(`src/part4/fsm/actions/utils.h`).  `maybeK k` is the type
`Maybe<k> = OneOf<k, Nothing>`, whose runtime values are the accepting and
the declining variant. -/
inductive ActionKind (ι : Type) where
  | nothingK
  | transitionToK (target : ι)
  | maybeK (held : ActionKind ι)
deriving DecidableEq

/-- ClosedState's `On` override list at the type level
(`src/part2/Door.h`, lines 35-37). -/
def ClosedState.onsK : List (EvTag × ActionKind DoorState) :=
  [(EvTag.lockT, ActionKind.transitionToK DoorState.locked),
   (EvTag.openT, ActionKind.transitionToK DoorState.opened)]

/-- OpenState's `On` override list at the type level
(`src/part2/Door.h`, lines 52-53). -/
def OpenState.onsK : List (EvTag × ActionKind DoorState) :=
  [(EvTag.closeT, ActionKind.transitionToK DoorState.closed)]

/-- LockedState declares no `On` overrides at all: it derives directly from
`ByDefault<Nothing>` and adds a plain member overload
`handle(const UnlockEvent&)` instead (`src/part2/Door.h`, lines 57-80). -/
def LockedState.onsK : List (EvTag × ActionKind DoorState) :=
  []

/-- The `On` declarations of each Door state. -/
def doorOns : DoorState → List (EvTag × ActionKind DoorState)
  | DoorState.closed => ClosedState.onsK
  | DoorState.opened => OpenState.onsK
  | DoorState.locked => LockedState.onsK

/-- Every Door state's default action type is `Nothing`
(`ByDefault<Nothing>` in all three declarations of `src/part2/Door.h`). -/
def doorDefaultKind : DoorState → ActionKind DoorState :=
  fun _ => ActionKind.nothingK

/-- `ResolveAction` (`src/part4/fsm/actions/utils.h`, lines 6-20) applied
to the Door's states: the pure, compile-time
`decltype(std::declval<State>().handle(std::declval<Event>()))`, i.e. the
result type chosen by overload resolution over each state's `handle`
overload set.  For `ClosedState` and `OpenState` the overload set is
exactly their `Will` composition; for `LockedState` it is the directly
declared `handle(const UnlockEvent&)` — whose return type is
`Maybe<TransitionTo<ClosedState>>` — together with the inherited
`ByDefault<Nothing>::handle` catch-all.  It deterministically maps a
(state, event) pair to an action type, taking no machine state and
executing nothing. -/
def ResolveAction : DoorState → EvTag → ActionKind DoorState
  | DoorState.closed, t =>
      Will.handle (doorDefaultKind DoorState.closed) ClosedState.onsK t
  | DoorState.opened, t =>
      Will.handle (doorDefaultKind DoorState.opened) OpenState.onsK t
  | DoorState.locked, EvTag.unlockT =>
      ActionKind.maybeK (ActionKind.transitionToK DoorState.closed)
  | DoorState.locked, t =>
      ByDefault.handle (doorDefaultKind DoorState.locked) t

/-- The claim's resolution rule read literally: "if S declares `On<E,A>`,
the result is A; otherwise it is S's default action type". -/
def resolveOnThenDefault (i : DoorState) (t : EvTag) : ActionKind DoorState :=
  Will.handle (doorDefaultKind i) (doorOns i) t

/-- Counterexample to C7: `LockedState` declares no `On<UnlockEvent, ·>`
(its `onsK` list is empty), so the claim's rule yields its default action
type `Nothing` for `UnlockEvent` — yet `ResolveAction` yields
`Maybe<TransitionTo<ClosedState>>`, the return type of the directly
declared member overload `handle(const UnlockEvent&)`. -/
theorem resolveAction_rule_counterexample :
    ResolveAction DoorState.locked EvTag.unlockT =
      ActionKind.maybeK (ActionKind.transitionToK DoorState.closed) ∧
    doorOns DoorState.locked = [] ∧
    resolveOnThenDefault DoorState.locked EvTag.unlockT =
      ActionKind.nothingK ∧
    ResolveAction DoorState.locked EvTag.unlockT ≠
      resolveOnThenDefault DoorState.locked EvTag.unlockT :=
  ⟨rfl, rfl, rfl, by decide⟩

/-- The per-event member overloads each Door state declares directly (not
through `On`): only `LockedState::handle(const UnlockEvent&)`, of return
type `Maybe<TransitionTo<ClosedState>>` (`src/part2/Door.h`, line 73). -/
def doorDirectHandlers : DoorState → EvTag → Option (ActionKind DoorState)
  | DoorState.locked, EvTag.unlockT =>
      some (ActionKind.maybeK (ActionKind.transitionToK DoorState.closed))
  | _, _ => none

/-- C7 as amended: for every declared state S and declared event E,
`ResolveAction` deterministically returns the action type of S's directly
declared `handle` overload for E when one exists, and otherwise follows
the override-then-default rule: the action of S's `On<E,A>` entry if
declared, else S's default action type.  Being a plain function of
(state, event), it consults no machine state and executes no action. -/
theorem resolveAction_direct_then_on_then_default (i : DoorState)
    (t : EvTag) :
    ResolveAction i t =
      match doorDirectHandlers i t with
      | some k => k
      | none => resolveOnThenDefault i t := by
  cases i <;> cases t <;> rfl

end Fsm
